import Mathlib

set_option maxRecDepth 8000

/- Verification of the speech-capture / voice-activity-detection core of the
study_aid repository, shallowly embedded from
`study_aid3/speech_recognition/speech_recognizer_with_vad.py` and
`study_aid3/speech_recognition/audio_capture.py`.

Python floats are modelled as elements of a linear ordered field: the state
machine is generic in the field `K`, so it can be evaluated at `ℚ` on concrete
inputs and instantiated at `ℝ` where `np.sqrt` is involved.  Numpy arrays are
modelled as lists; the bounded `queue.Queue(maxsize=100)` as a list of at most
100 elements; thread spawns as tagged dispatch events. -/

namespace StudyAid

/-- VAD hysteresis states, the `current_state` strings `"SILENCE"` / `"SPEECH"`
of `SpeechRecognizerWithVAD`. -/
inductive VState where
  | SILENCE
  | SPEECH
deriving DecidableEq

/-- How a recognition call is issued: `sync` for a direct call on the segmenter
thread, `async` for a `threading.Thread(...).start()` hand-off. -/
inductive DispatchMode where
  | sync
  | async
deriving DecidableEq

/-! ## AudioCapture (`audio_capture.py`) -/

/-- Kind of native capture stream opened by `AudioCapture`. -/
inductive CaptureKind where
  | microphone
  | system
deriving DecidableEq

/-- One open native stream: a `sounddevice.InputStream` (microphone) or a
pyaudio WASAPI loopback stream (system audio). -/
structure Session where
  kind : CaptureKind
  device_index : Nat
deriving DecidableEq

/-- Lifecycle state of `AudioCapture`: the native streams currently open
(each start spawns a capture thread owning one stream). -/
structure CaptureState where
  sessions : List Session
deriving DecidableEq

/-- `queue.Queue(maxsize=100)` bound from `AudioCapture.__init__`. -/
def queue_maxsize : Nat := 100

/-- `AudioCapture.stop_capture`: sets the stop event, joins the capture
thread, closes the pyaudio stream and instance and the sounddevice stream.
After it, no native stream is open. -/
def stop_capture (_st : CaptureState) : CaptureState := { sessions := [] }

/-- `AudioCapture.start_microphone_capture`: clears the stop event and starts
a new capture thread opening a microphone stream.  It does NOT call
`stop_capture` first, so any previously open stream stays open. -/
def start_microphone_capture (st : CaptureState) (d : Nat) : CaptureState :=
  { sessions := st.sessions ++ [⟨CaptureKind.microphone, d⟩] }

/-- `AudioCapture.start_system_audio_capture`: calls `self.stop_capture()`
first, then starts a new capture thread opening a loopback stream. -/
def start_system_audio_capture (st : CaptureState) (d : Nat) : CaptureState :=
  { sessions := (stop_capture st).sessions ++ [⟨CaptureKind.system, d⟩] }

/-- The push performed by the system-audio callback
(`_capture_system_audio.callback`): `audio_queue.put_nowait(...)` guarded by
`except queue.Full: pass` — when the queue is full the incoming frame is
dropped and the queue is left unchanged; the callback never blocks. -/
def system_callback_push {α : Type} (q : List α) (f : α) : List α :=
  if q.length < queue_maxsize then q ++ [f] else q

/-- The push performed by the microphone callback
(`_capture_microphone.callback`): a plain blocking `audio_queue.put(...)`.
`none` models the callback blocking because the queue is full. -/
def microphone_callback_push {α : Type} (q : List α) (f : α) : Option (List α) :=
  if q.length < queue_maxsize then some (q ++ [f]) else none

/-! ## SpeechRecognizerWithVAD (`speech_recognizer_with_vad.py`) -/

/-- The mutable attributes of `SpeechRecognizerWithVAD` that the lifecycle and
per-frame code touches (frames are lists of samples in `K`). -/
structure RecState (K : Type) where
  current_state : VState
  silent_frames_count : Nat
  speech_frames : List (List K)
  smoothed_energy : K
  is_speaking : Bool
  silence_frames : Nat
  vad_decision_buffer : List Bool
  last_is_speech_status : Option Bool
  thread_alive : Bool
deriving DecidableEq

/-- Configuration fixed in `__init__`. -/
structure VADParams (K : Type) where
  smoothing_factor : K
  speech_threshold : K
  silence_frames_needed : Nat
  silence_threshold_frames : Nat
  frames_missed : Nat
deriving DecidableEq

/-- Attribute values set in `__init__` (before any `start`). -/
def initState (K : Type) [LinearOrderedField K] : RecState K :=
  { current_state := VState.SILENCE
    silent_frames_count := 0
    speech_frames := []
    smoothed_energy := 0
    is_speaking := false
    silence_frames := 0
    vad_decision_buffer := []
    last_is_speech_status := none
    thread_alive := false }

/-- The smoothed-energy update performed inside `_is_speech`:
`smoothed = smoothing_factor * smoothed + (1 - smoothing_factor) * energy`. -/
def smoothed_update {K : Type} [LinearOrderedField K] (p : VADParams K) (e s : K) : K :=
  p.smoothing_factor * s + (1 - p.smoothing_factor) * e

/-- `_process_audio_frame`, given the frame together with its energy
(`_is_speech` is inlined: it updates the smoothed energy and classifies the
frame as speech iff the updated value strictly exceeds `speech_threshold`).
The second component is the recognition dispatch the call performs, if any:
on the SPEECH→SILENCE transition the code calls `recognize_audio_chunk`
directly (synchronously) with the concatenated buffer. -/
def process_audio_frame {K : Type} [LinearOrderedField K] (p : VADParams K)
    (frame : List K) (e : K) (st : RecState K) :
    RecState K × Option (List K × DispatchMode) :=
  let s' := smoothed_update p e st.smoothed_energy
  match st.current_state with
  | VState.SILENCE =>
      if p.speech_threshold < s' then
        ({ st with current_state := VState.SPEECH
                   smoothed_energy := s'
                   silent_frames_count := 0
                   speech_frames := st.speech_frames ++ [frame] }, none)
      else
        ({ st with smoothed_energy := s' }, none)
  | VState.SPEECH =>
      if p.speech_threshold < s' then
        ({ st with smoothed_energy := s'
                   speech_frames := st.speech_frames ++ [frame]
                   silent_frames_count := 0 }, none)
      else
        if p.silence_frames_needed ≤ st.silent_frames_count + 1 then
          ({ st with current_state := VState.SILENCE
                     smoothed_energy := s'
                     speech_frames := []
                     silent_frames_count := 0 },
           some ((st.speech_frames ++ [frame]).flatten, DispatchMode.sync))
        else
          ({ st with smoothed_energy := s'
                     speech_frames := st.speech_frames ++ [frame]
                     silent_frames_count := st.silent_frames_count + 1 }, none)

/-- Process a list of (frame, energy) pairs in order, collecting the
recognition dispatches that occur (the segmenter loop body of
`_process_audio_queue` when the queue is non-empty). -/
def run_vad {K : Type} [LinearOrderedField K] (p : VADParams K) :
    List (List K × K) → RecState K → RecState K × List (List K × DispatchMode)
  | [], st => (st, [])
  | (f, e) :: rest, st =>
      let step := process_audio_frame p f e st
      let restRun := run_vad p rest step.1
      (restRun.1, step.2.toList ++ restRun.2)

/-- `_trigger_recognition`: when the buffer is non-empty, concatenate it,
clear it, and start the recognition in a NEW thread (async dispatch). -/
def trigger_recognition {K : Type} [LinearOrderedField K] (st : RecState K) :
    RecState K × Option (List K × DispatchMode) :=
  if st.speech_frames = [] then (st, none)
  else ({ st with speech_frames := [] },
        some (st.speech_frames.flatten, DispatchMode.async))

/-- `start`: if the processing thread is alive, return unchanged; otherwise
clear the stop event, reset `is_speaking`, `silence_frames`, `speech_frames`,
`vad_decision_buffer`, `last_is_speech_status`, `smoothed_energy`, and start
the processing thread.  Note: `current_state` and `silent_frames_count` are
NOT reset. -/
def start {K : Type} [LinearOrderedField K] (st : RecState K) : RecState K :=
  if st.thread_alive then st
  else
    { st with thread_alive := true
              is_speaking := false
              silence_frames := 0
              speech_frames := []
              vad_decision_buffer := []
              last_is_speech_status := none
              smoothed_energy := 0 }

/-- `stop`: if no processing thread is alive, return; otherwise set the stop
event, join the thread, and — only if `is_speaking` and the buffer is
non-empty — call `_trigger_recognition`.  The second component counts the
recognition dispatches `stop` performs. -/
def stop {K : Type} [LinearOrderedField K] (st : RecState K) : RecState K × Nat :=
  if st.thread_alive = false then (st, 0)
  else
    let st1 := { st with thread_alive := false }
    if st.is_speaking = true ∧ st.speech_frames ≠ [] then
      let t := trigger_recognition st1
      (t.1, if t.2.isSome then 1 else 0)
    else (st1, 0)

/-- The `queue.Empty` branch of `_process_audio_queue`: when `is_speaking`,
count elapsed silence and trigger an (async) recognition once
`silence_frames` exceeds `silence_threshold_frames`. -/
def queue_empty_step {K : Type} [LinearOrderedField K] (p : VADParams K)
    (st : RecState K) : RecState K × Option (List K × DispatchMode) :=
  if st.is_speaking = true then
    let sf := st.silence_frames + p.frames_missed
    if p.silence_threshold_frames < sf then
      let t := trigger_recognition { st with silence_frames := sf }
      ({ t.1 with is_speaking := false, silence_frames := 0 }, t.2)
    else ({ st with silence_frames := sf }, none)
  else (st, none)

/-- The guard at the top of `recognize_audio_chunk`:
`if not audio_chunk.any(): return` — recognition proceeds only when some
sample of the chunk is non-zero. -/
def recognize_audio_chunk_proceeds {K : Type} [DecidableEq K] [Zero K]
    (samples : List K) : Bool :=
  samples.any fun x => decide (x ≠ 0)

/-- States of one `SpeechRecognizerWithVAD` instance reachable through its
public lifecycle and its processing loop (frames with arbitrary energies). -/
inductive Reachable {K : Type} [LinearOrderedField K] (p : VADParams K) :
    RecState K → Prop where
  | init : Reachable p (initState K)
  | start_step {st : RecState K} : Reachable p st → Reachable p (start st)
  | frame_step {st : RecState K} (f : List K) (e : K) :
      Reachable p st → Reachable p (process_audio_frame p f e st).1
  | queue_empty {st : RecState K} :
      Reachable p st → Reachable p (queue_empty_step p st).1
  | stop_step {st : RecState K} : Reachable p st → Reachable p (stop st).1

/-! ## Frame energy (`_calculate_energy`, `_is_speech`) over `ℝ` -/

/-- A numpy audio frame as delivered to the recognizer: either raw 16-bit
integer samples or floating-point samples. -/
inductive AudioChunk where
  | int16 (samples : List ℤ)
  | float32 (samples : List ℝ)

/-- The dtype conversion at the top of `_calculate_energy`:
`if audio_chunk.dtype != np.float32: audio_chunk.astype(np.float32)/32768.0`. -/
noncomputable def toFloatSamples : AudioChunk → List ℝ
  | AudioChunk.int16 xs => xs.map fun x => (x : ℝ) / 32768
  | AudioChunk.float32 xs => xs

/-- `np.max(np.abs(audio_chunk))` (0 on an empty list). -/
noncomputable def maxAbs (xs : List ℝ) : ℝ :=
  xs.foldr (fun x m => max |x| m) 0

/-- The peak normalization in `_calculate_energy`:
`if max_val > 1.0: audio_chunk = audio_chunk / max_val`. -/
noncomputable def normalizeChunk (xs : List ℝ) : List ℝ :=
  if 1 < maxAbs xs then xs.map fun x => x / maxAbs xs else xs

/-- `np.mean(audio_chunk**2)` (0 on an empty list, where numpy would warn). -/
noncomputable def meanSquare (xs : List ℝ) : ℝ :=
  (xs.map fun x => x ^ 2).sum / xs.length

/-- `_calculate_energy`: RMS of the (dtype-converted, peak-normalized)
samples. -/
noncomputable def calculate_energy (c : AudioChunk) : ℝ :=
  Real.sqrt (meanSquare (normalizeChunk (toFloatSamples c)))

/-- `_is_speech` as a pure function: returns the updated smoothed energy and
the speech classification `smoothed > speech_threshold`. -/
noncomputable def is_speech (p : VADParams ℝ) (c : AudioChunk) (s : ℝ) : ℝ × Bool :=
  (smoothed_update p (calculate_energy c) s,
   decide (p.speech_threshold < smoothed_update p (calculate_energy c) s))

/-- Modelled from the spec: frame energy as "root-mean-square of sample
amplitudes". -/
noncomputable def spec_rms (xs : List ℝ) : ℝ :=
  Real.sqrt ((xs.map fun x => x ^ 2).sum / xs.length)

/-- Modelled from the spec: "normalize amplitude to [-1,1] first if needed",
then take the RMS. -/
noncomputable def spec_energy (xs : List ℝ) : ℝ :=
  if 1 < maxAbs xs then spec_rms (xs.map fun x => x / maxAbs xs)
  else spec_rms xs

/-- Modelled from the spec: `smoothed = α·smoothed + (1-α)·energy` and
`isSpeech = smoothed > speechThreshold`. -/
noncomputable def spec_classify (α θ s e : ℝ) : ℝ × Bool :=
  (α * s + (1 - α) * e, decide (θ < α * s + (1 - α) * e))

/-- Run the segmenter on a list of captured frames, computing each frame's
energy with `_calculate_energy` (the composition `_process_audio_frame` ∘
`_is_speech` performs on every dequeued frame). -/
noncomputable def run_vad_chunks (p : VADParams ℝ) (cs : List AudioChunk)
    (st : RecState ℝ) : RecState ℝ × List (List ℝ × DispatchMode) :=
  run_vad p (cs.map fun c => (toFloatSamples c, calculate_energy c)) st

/-! ## Transport from `ℚ` runs to `ℝ` runs -/

/-- Cast the configuration from `ℚ` to `ℝ`. -/
noncomputable def castParams (p : VADParams ℚ) : VADParams ℝ :=
  { smoothing_factor := (p.smoothing_factor : ℝ)
    speech_threshold := (p.speech_threshold : ℝ)
    silence_frames_needed := p.silence_frames_needed
    silence_threshold_frames := p.silence_threshold_frames
    frames_missed := p.frames_missed }

/-- Cast a recognizer state from `ℚ` to `ℝ`. -/
noncomputable def castState (st : RecState ℚ) : RecState ℝ :=
  { current_state := st.current_state
    silent_frames_count := st.silent_frames_count
    speech_frames := st.speech_frames.map (List.map fun q : ℚ => (q : ℝ))
    smoothed_energy := (st.smoothed_energy : ℝ)
    is_speaking := st.is_speaking
    silence_frames := st.silence_frames
    vad_decision_buffer := st.vad_decision_buffer
    last_is_speech_status := st.last_is_speech_status
    thread_alive := st.thread_alive }

/-! ## Invariant for the no-all-zero-flush property -/

/-- Invariant of the segmenter run: the smoothed energy is non-negative, in
SILENCE it is at most the threshold, and in SPEECH the buffer already holds a
frame with a non-zero sample. -/
def VadInv (p : VADParams ℝ) (st : RecState ℝ) : Prop :=
  0 ≤ st.smoothed_energy
  ∧ (st.current_state = VState.SILENCE →
      st.smoothed_energy ≤ p.speech_threshold)
  ∧ (st.current_state = VState.SPEECH →
      ∃ f ∈ st.speech_frames, ∃ x ∈ f, x ≠ 0)

/-! ## The §8 segmentation scenario -/

/-- A 100 ms all-zero frame (two samples suffice for the model). -/
noncomputable def zeroChunk : AudioChunk := AudioChunk.float32 [0, 0]

/-- A 100 ms frame of constant amplitude 1/2 (energy 0.5). -/
noncomputable def halfChunk : AudioChunk := AudioChunk.float32 [1 / 2, 1 / 2]

/-- The scenario input: 100 ms silence, 500 ms at energy 0.5, 1200 ms
silence. -/
noncomputable def scenarioChunks : List AudioChunk :=
  [zeroChunk] ++ List.replicate 5 halfChunk ++ List.replicate 12 zeroChunk

/-- The scenario input with the trailing silence extended to 3200 ms. -/
noncomputable def scenarioChunksLong : List AudioChunk :=
  [zeroChunk] ++ List.replicate 5 halfChunk ++ List.replicate 32 zeroChunk

/-- Scenario configuration: `smoothing_factor` 0.9 (default),
`speech_threshold` 0.02, `silence_duration` 1.0 s, `chunk_duration` 0.1 s,
hence `silence_frames_needed = 10`. -/
noncomputable def scenarioParams : VADParams ℝ :=
  { smoothing_factor := 9 / 10
    speech_threshold := 1 / 50
    silence_frames_needed := 10
    silence_threshold_frames := 10
    frames_missed := 1 }

/-- `scenarioParams` over `ℚ`, for concrete evaluation. -/
def scenarioParamsQ : VADParams ℚ :=
  { smoothing_factor := 9 / 10
    speech_threshold := 1 / 50
    silence_frames_needed := 10
    silence_threshold_frames := 10
    frames_missed := 1 }

/-- The (frame, energy) pairs of `scenarioChunks` over `ℚ`. -/
def scenarioPairsQ : List (List ℚ × ℚ) :=
  [([0, 0], 0)] ++ List.replicate 5 ([1 / 2, 1 / 2], 1 / 2)
    ++ List.replicate 12 ([0, 0], 0)

/-- The (frame, energy) pairs of `scenarioChunksLong` over `ℚ`. -/
def scenarioPairsLongQ : List (List ℚ × ℚ) :=
  [([0, 0], 0)] ++ List.replicate 5 ([1 / 2, 1 / 2], 1 / 2)
    ++ List.replicate 32 ([0, 0], 0)

/-- A short input that does produce a flush (with `flushParams`): one loud
frame followed by four silent ones. -/
noncomputable def flushChunks : List AudioChunk :=
  [halfChunk, zeroChunk, zeroChunk, zeroChunk, zeroChunk]

/-- Fast-decay configuration (smoothing 0.5, threshold 0.02, one silent frame
needed) under which `flushChunks` flushes. -/
noncomputable def flushParams : VADParams ℝ :=
  { smoothing_factor := 1 / 2
    speech_threshold := 1 / 50
    silence_frames_needed := 1
    silence_threshold_frames := 10
    frames_missed := 1 }

/-- `flushParams` over `ℚ`. -/
def flushParamsQ : VADParams ℚ :=
  { smoothing_factor := 1 / 2
    speech_threshold := 1 / 50
    silence_frames_needed := 1
    silence_threshold_frames := 10
    frames_missed := 1 }

/-- The (frame, energy) pairs of `flushChunks` over `ℚ`. -/
def flushPairsQ : List (List ℚ × ℚ) :=
  [([1 / 2, 1 / 2], 1 / 2), ([0, 0], 0), ([0, 0], 0), ([0, 0], 0), ([0, 0], 0)]

/-! ## Theorems: the bounded frame queue (claim C2) -/

/-- Claim C2 counterexample: with the queue at its 100-frame bound, the
system-loopback callback push does not evict the oldest frame in favour of
the new one (it returns the queue unchanged, dropping the incoming frame),
and the microphone callback push blocks (`none`). -/
theorem queue_full_claim_counterexample :
    system_callback_push (List.replicate 100 (0 : Nat)) 1
        ≠ (List.replicate 100 (0 : Nat)).drop 1 ++ [1]
      ∧ microphone_callback_push (List.replicate 100 (0 : Nat)) 1 = none := by
  decide

/-- Claim C2 (amended): pushing a frame never grows the queue past its
100-frame bound; on a full queue the system-loopback callback does not block
but drops the NEW frame, leaving the queue unchanged, while the microphone
callback performs a blocking put; below the bound both enqueue at the tail. -/
theorem queue_push_bounded {α : Type} (q : List α) (f : α)
    (hq : q.length ≤ queue_maxsize) :
    (system_callback_push q f).length ≤ queue_maxsize
    ∧ (q.length = queue_maxsize → system_callback_push q f = q)
    ∧ (q.length < queue_maxsize → system_callback_push q f = q ++ [f])
    ∧ (q.length = queue_maxsize → microphone_callback_push q f = none) := by
  unfold system_callback_push microphone_callback_push
  refine ⟨?_, fun h => ?_, fun h => ?_, fun h => ?_⟩
  · split_ifs with h
    · simpa using h
    · exact hq
  · rw [if_neg (by omega)]
  · rw [if_pos h]
  · rw [if_neg (by omega)]

/-- Witness for `queue_push_bounded` at a concrete full queue. -/
theorem queue_push_bounded_witness :
    system_callback_push (List.replicate 100 (0 : Nat)) 1 = List.replicate 100 0
      ∧ microphone_callback_push (List.replicate 100 (0 : Nat)) 1 = none :=
  ⟨(queue_push_bounded (List.replicate 100 0) 1 (by decide)).2.1 (by decide),
   (queue_push_bounded (List.replicate 100 0) 1 (by decide)).2.2.2 (by decide)⟩

/-! ## Theorems: capture session teardown (claim C4) -/

/-- Claim C4 counterexample: two `start_microphone_capture` calls with no
intervening stop leave two native streams open, so it is false that starting
a new capture session of either kind first tears down the existing one. -/
theorem double_start_counterexample :
    ¬ (start_microphone_capture
        (start_microphone_capture ⟨[]⟩ 0) 1).sessions.length ≤ 1 := by
  decide

/-- Claim C4 (amended): `start_system_audio_capture` tears down any existing
session first, leaving exactly the one new loopback session active;
`start_microphone_capture` performs no teardown and adds a microphone stream
next to whatever sessions are already open. -/
theorem start_capture_teardown (st : CaptureState) (d : Nat) :
    start_system_audio_capture st d = ⟨[⟨CaptureKind.system, d⟩]⟩
    ∧ (start_system_audio_capture st d).sessions.length = 1
    ∧ start_microphone_capture st d
        = ⟨st.sessions ++ [⟨CaptureKind.microphone, d⟩]⟩ :=
  ⟨rfl, rfl, rfl⟩

/-! ## Theorems: the dead `is_speaking` flag and `stop` (claim C1) -/

/-- `_process_audio_frame` never touches `is_speaking`. -/
theorem process_audio_frame_is_speaking {K : Type} [LinearOrderedField K]
    (p : VADParams K) (f : List K) (e : K) (st : RecState K) :
    (process_audio_frame p f e st).1.is_speaking = st.is_speaking := by
  cases hcs : st.current_state <;>
    simp only [process_audio_frame, hcs] <;> split_ifs <;> rfl

/-- `stop` never touches `is_speaking`. -/
theorem stop_is_speaking {K : Type} [LinearOrderedField K] (st : RecState K) :
    (stop st).1.is_speaking = st.is_speaking := by
  unfold stop trigger_recognition
  dsimp only
  split_ifs <;> rfl

/-- No assignment in the source ever sets `is_speaking` to `True`
(`__init__` and `start` set it to `False`, the queue-empty branch only resets
it), so it is `false` in every reachable state. -/
theorem is_speaking_false_of_reachable {K : Type} [LinearOrderedField K]
    {p : VADParams K} {st : RecState K} (h : Reachable p st) :
    st.is_speaking = false := by
  induction h with
  | init => rfl
  | start_step _ ih =>
      unfold start; split_ifs
      · exact ih
      · rfl
  | frame_step f e _ ih => rw [process_audio_frame_is_speaking]; exact ih
  | queue_empty _ ih => simp [queue_empty_step, ih]
  | stop_step _ ih => rw [stop_is_speaking]; exact ih

/-- Claim C1 (code behaviour): in every reachable state with the VAD in
SPEECH and a non-empty utterance buffer, `stop` performs ZERO recognition
dispatches and leaves the buffered frames behind — the final-flush branch in
`stop` is guarded by `is_speaking`, which is never set to `True`, so the
claimed "exactly one flush" never happens and the segment is dropped. -/
theorem stop_performs_no_flush {K : Type} [LinearOrderedField K]
    (p : VADParams K) (st : RecState K) (h : Reachable p st)
    (_hsp : st.current_state = VState.SPEECH)
    (_hbuf : st.speech_frames ≠ []) :
    (stop st).2 = 0 ∧ (stop st).1.speech_frames = st.speech_frames := by
  have hf := is_speaking_false_of_reachable h
  unfold stop
  split_ifs with h1 h2
  · exact ⟨rfl, rfl⟩
  · rw [hf] at h2; exact absurd h2.1 (by simp)
  · exact ⟨rfl, rfl⟩

/-- Witness for `stop_performs_no_flush`: a concrete reachable SPEECH state
with a buffered frame, on which `stop` flushes nothing. -/
theorem stop_performs_no_flush_witness :
    (stop (process_audio_frame scenarioParamsQ [1] 1
        (start (initState ℚ))).1).2 = 0 :=
  (stop_performs_no_flush scenarioParamsQ
      (process_audio_frame scenarioParamsQ [1] 1 (start (initState ℚ))).1
      (Reachable.frame_step [1] 1 (Reachable.start_step Reachable.init))
      (by norm_num [process_audio_frame, smoothed_update, start, initState,
        scenarioParamsQ])
      (by norm_num [process_audio_frame, smoothed_update, start, initState,
        scenarioParamsQ])).1

/-! ## Theorems: start/stop reset (claim C5) -/

/-- Claim C5 counterexample: after a session that ended mid-SPEECH, calling
`start` again leaves the hysteresis state at SPEECH (not SILENCE), and `stop`
does not reset the smoothed energy to zero. -/
theorem start_reset_counterexample :
    (start (stop (process_audio_frame scenarioParamsQ [1] 1
        (start (initState ℚ))).1).1).current_state ≠ VState.SILENCE
    ∧ (stop (process_audio_frame scenarioParamsQ [1] 1
        (start (initState ℚ))).1).1.smoothed_energy ≠ 0 := by
  norm_num [start, stop, trigger_recognition, process_audio_frame,
    smoothed_update, initState, scenarioParamsQ]
  decide

/-- Claim C5 (amended): `start` (with no processing thread alive) resets the
utterance buffer, the smoothed energy, the legacy silence counter, the
speaking flag — but leaves `current_state` and `silent_frames_count`
unchanged; `stop` leaves the hysteresis state, the consecutive-silence
counter and the smoothed energy unchanged. -/
theorem start_stop_incomplete_reset {K : Type} [LinearOrderedField K]
    (st : RecState K) (hdead : st.thread_alive = false) :
    (start st).speech_frames = []
    ∧ (start st).smoothed_energy = 0
    ∧ (start st).silence_frames = 0
    ∧ (start st).is_speaking = false
    ∧ (start st).current_state = st.current_state
    ∧ (start st).silent_frames_count = st.silent_frames_count
    ∧ (stop st).1.current_state = st.current_state
    ∧ (stop st).1.silent_frames_count = st.silent_frames_count
    ∧ (stop st).1.smoothed_energy = st.smoothed_energy := by
  unfold start stop
  rw [if_neg (by simp [hdead]), if_pos hdead]
  exact ⟨rfl, rfl, rfl, rfl, rfl, rfl, rfl, rfl, rfl⟩

/-- Witness for `start_stop_incomplete_reset` at a concrete state reached by
stopping mid-SPEECH. -/
theorem start_stop_incomplete_reset_witness :
    (start (stop (process_audio_frame scenarioParamsQ [1] 1
        (start (initState ℚ))).1).1).speech_frames = []
    ∧ (start (stop (process_audio_frame scenarioParamsQ [1] 1
        (start (initState ℚ))).1).1).current_state
        = (stop (process_audio_frame scenarioParamsQ [1] 1
            (start (initState ℚ))).1).1.current_state :=
  ⟨(start_stop_incomplete_reset _ (by norm_num [start, stop, trigger_recognition,
      process_audio_frame, smoothed_update, initState, scenarioParamsQ])).1,
   (start_stop_incomplete_reset _ (by norm_num [start, stop, trigger_recognition,
      process_audio_frame, smoothed_update, initState, scenarioParamsQ])).2.2.2.2.1⟩

/-! ## Theorems: hysteresis (claim C8) -/

/-- Claim C8: a flush happens only from SPEECH, on a frame classified as
silence, when the incremented consecutive-silence counter reaches
`silence_frames_needed`; a speech-classified frame in SPEECH resets the
counter to zero and never flushes; and any single frame processed while the
counter is more than one below the threshold cannot terminate the utterance. -/
theorem hysteresis_flush_rule {K : Type} [LinearOrderedField K]
    (p : VADParams K) :
    (∀ (st : RecState K) (f : List K) (e : K),
        (process_audio_frame p f e st).2 ≠ none →
          st.current_state = VState.SPEECH
          ∧ smoothed_update p e st.smoothed_energy ≤ p.speech_threshold
          ∧ p.silence_frames_needed ≤ st.silent_frames_count + 1)
    ∧ (∀ (st : RecState K) (f : List K) (e : K),
        st.current_state = VState.SPEECH →
        p.speech_threshold < smoothed_update p e st.smoothed_energy →
          (process_audio_frame p f e st).2 = none
          ∧ (process_audio_frame p f e st).1.current_state = VState.SPEECH
          ∧ (process_audio_frame p f e st).1.silent_frames_count = 0)
    ∧ (∀ (st : RecState K) (f : List K) (e : K),
        st.current_state = VState.SPEECH →
        st.silent_frames_count + 2 ≤ p.silence_frames_needed →
          (process_audio_frame p f e st).2 = none
          ∧ (process_audio_frame p f e st).1.current_state = VState.SPEECH) := by
  refine ⟨fun st f e hflush => ?_, fun st f e hsp hcl => ?_,
    fun st f e hsp hcnt => ?_⟩
  · cases hcs : st.current_state <;>
      simp only [process_audio_frame, hcs] at hflush ⊢
    · split_ifs at hflush <;> simp at hflush
    · split_ifs at hflush with h1 h2
      · simp at hflush
      · exact ⟨trivial, le_of_not_lt h1, h2⟩
      · simp at hflush
  · simp only [process_audio_frame, hsp, if_pos hcl]
    refine ⟨?_, ?_, ?_⟩ <;> first | rfl | trivial
  · simp only [process_audio_frame, hsp]
    split_ifs with h1 h2
    · exact ⟨rfl, rfl⟩
    · omega
    · exact ⟨rfl, rfl⟩

/-- Witness for `hysteresis_flush_rule`: a concrete SPEECH state where a
speech-classified frame resets the counter without flushing. -/
theorem hysteresis_flush_rule_witness :
    (process_audio_frame scenarioParamsQ [1] 1
        (process_audio_frame scenarioParamsQ [1] 1
          (start (initState ℚ))).1).2 = none
    ∧ (process_audio_frame scenarioParamsQ [1] 1
        (process_audio_frame scenarioParamsQ [1] 1
          (start (initState ℚ))).1).1.silent_frames_count = 0 :=
  ⟨((hysteresis_flush_rule scenarioParamsQ).2.1 _ [1] 1
      (by norm_num [process_audio_frame, smoothed_update, start, initState,
        scenarioParamsQ])
      (by norm_num [process_audio_frame, smoothed_update, start, initState,
        scenarioParamsQ])).1,
   ((hysteresis_flush_rule scenarioParamsQ).2.1 _ [1] 1
      (by norm_num [process_audio_frame, smoothed_update, start, initState,
        scenarioParamsQ])
      (by norm_num [process_audio_frame, smoothed_update, start, initState,
        scenarioParamsQ])).2.2⟩

/-! ## Theorems: dispatch concurrency (claim C3) -/

/-- Every dispatch a single `_process_audio_frame` call performs is a direct
synchronous call. -/
theorem process_audio_frame_dispatch_sync {K : Type} [LinearOrderedField K]
    (p : VADParams K) (f : List K) (e : K) (st : RecState K) :
    ∀ o ∈ (process_audio_frame p f e st).2.toList, o.2 = DispatchMode.sync := by
  cases hcs : st.current_state <;>
    simp only [process_audio_frame, hcs] <;>
    split_ifs <;> simp

/-- Claim C3 counterexample: a completed utterance (SPEECH→SILENCE
transition) is handed to recognition with a synchronous call on the segmenter
thread, not as an independent concurrent task. -/
theorem transition_flush_sync_counterexample :
    ((run_vad (⟨1/2, 1/50, 1, 10, 1⟩ : VADParams ℚ)
        [([1], 1), ([0], 0), ([0], 0), ([0], 0), ([0], 0), ([0], 0)]
        (initState ℚ)).2.map Prod.snd) = [DispatchMode.sync]
    ∧ DispatchMode.sync ≠ DispatchMode.async := by
  refine ⟨?_, by simp⟩
  norm_num [run_vad, process_audio_frame, smoothed_update, initState]

/-- Claim C3 (amended): every utterance completed by the SPEECH→SILENCE
transition inside the segmenter loop is dispatched synchronously (the
segmenter thread blocks on `recognize_audio_chunk`); only
`_trigger_recognition` — used by the queue-empty timeout path and by `stop`
— dispatches on a new thread. -/
theorem transition_flush_is_synchronous {K : Type} [LinearOrderedField K]
    (p : VADParams K) :
    (∀ (inputs : List (List K × K)) (st : RecState K),
        ∀ o ∈ (run_vad p inputs st).2, o.2 = DispatchMode.sync)
    ∧ (∀ st : RecState K, ∀ o ∈ (trigger_recognition st).2.toList,
        o.2 = DispatchMode.async) := by
  constructor
  · intro inputs
    induction inputs with
    | nil => intro st o ho; simp [run_vad] at ho
    | cons pr rest ih =>
        intro st o ho
        obtain ⟨f, e⟩ := pr
        simp only [run_vad, List.mem_append] at ho
        rcases ho with ho | ho
        · exact process_audio_frame_dispatch_sync p f e st o ho
        · exact ih _ o ho
  · intro st o ho
    unfold trigger_recognition at ho
    split_ifs at ho <;> simp_all

/-- Witness for `transition_flush_is_synchronous` at the concrete flushing
run used in the counterexample. -/
theorem transition_flush_is_synchronous_witness :
    (([1, 0, 0, 0, 0, 0] : List ℚ), DispatchMode.sync).2 = DispatchMode.sync :=
  (transition_flush_is_synchronous (⟨1/2, 1/50, 1, 10, 1⟩ : VADParams ℚ)).1
    [([1], 1), ([0], 0), ([0], 0), ([0], 0), ([0], 0), ([0], 0)]
    (initState ℚ) _
    (by norm_num [run_vad, process_audio_frame, smoothed_update, initState])

/-! ## Transport of concrete runs from `ℚ` to `ℝ` -/

/-- `smoothed_update` commutes with the cast `ℚ → ℝ`. -/
theorem smoothed_update_cast (p : VADParams ℚ) (e s : ℚ) :
    smoothed_update (castParams p) ((e : ℝ)) ((s : ℝ))
      = ((smoothed_update p e s : ℚ) : ℝ) := by
  unfold smoothed_update castParams
  push_cast
  ring

/-- The classification condition commutes with the cast `ℚ → ℝ`. -/
theorem classify_cond_cast (p : VADParams ℚ) (e s : ℚ) :
    ((castParams p).speech_threshold
        < smoothed_update (castParams p) ((e : ℝ)) ((s : ℝ)))
      ↔ p.speech_threshold < smoothed_update p e s := by
  rw [smoothed_update_cast]
  show ((p.speech_threshold : ℝ)) < _ ↔ _
  exact Rat.cast_lt

/-- `_process_audio_frame` commutes with the cast `ℚ → ℝ`. -/
theorem process_audio_frame_cast (p : VADParams ℚ) (f : List ℚ) (e : ℚ)
    (st : RecState ℚ) :
    process_audio_frame (castParams p) (f.map fun q : ℚ => (q : ℝ)) ((e : ℝ))
        (castState st)
      = (castState (process_audio_frame p f e st).1,
         (process_audio_frame p f e st).2.map
           fun o => (o.1.map fun q : ℚ => (q : ℝ), o.2)) := by
  obtain ⟨cs, cnt, buf, sm, isp, sf, db, ls, ta⟩ := st
  have hcond := classify_cond_cast p e sm
  cases cs
  case SILENCE =>
    simp only [process_audio_frame, castState]
    rcases lt_or_le p.speech_threshold (smoothed_update p e sm) with h | h
    · rw [if_pos h, if_pos (hcond.mpr h)]
      simp [castState, smoothed_update_cast, List.map_append]
    · rw [if_neg (not_lt.mpr h), if_neg (fun hc => absurd (hcond.mp hc) (not_lt.mpr h))]
      simp [castState, smoothed_update_cast]
  case SPEECH =>
    simp only [process_audio_frame, castState]
    rcases lt_or_le p.speech_threshold (smoothed_update p e sm) with h | h
    · rw [if_pos h, if_pos (hcond.mpr h)]
      simp [castState, smoothed_update_cast, List.map_append]
    · rw [if_neg (not_lt.mpr h), if_neg (fun hc => absurd (hcond.mp hc) (not_lt.mpr h))]
      have hn : (castParams p).silence_frames_needed = p.silence_frames_needed := rfl
      by_cases hcnt : p.silence_frames_needed ≤ cnt + 1
      · rw [if_pos hcnt, if_pos (by rw [hn]; exact hcnt)]
        simp [castState, smoothed_update_cast, List.map_append, List.map_flatten]
      · rw [if_neg hcnt, if_neg (by rw [hn]; exact hcnt)]
        simp [castState, smoothed_update_cast, List.map_append]

/-- `run_vad` commutes with the cast `ℚ → ℝ`. -/
theorem run_vad_cast (p : VADParams ℚ) (inputs : List (List ℚ × ℚ))
    (st : RecState ℚ) :
    run_vad (castParams p)
        (inputs.map fun pr => (pr.1.map fun q : ℚ => (q : ℝ), ((pr.2 : ℝ))))
        (castState st)
      = (castState (run_vad p inputs st).1,
         (run_vad p inputs st).2.map
           fun o => (o.1.map fun q : ℚ => (q : ℝ), o.2)) := by
  induction inputs generalizing st with
  | nil => simp [run_vad]
  | cons pr rest ih =>
      obtain ⟨f, e⟩ := pr
      simp only [List.map_cons, run_vad, process_audio_frame_cast, ih]
      cases h2 : (process_audio_frame p f e st).2 <;> simp

/-- `castState` carries `__init__` values to `__init__` values. -/
theorem castState_initState : castState (initState ℚ) = initState ℝ := by
  simp [castState, initState]

/-- The scenario configuration is the cast of its `ℚ` version. -/
theorem castParams_scenarioParams : castParams scenarioParamsQ = scenarioParams := by
  simp only [castParams, scenarioParamsQ, scenarioParams]
  norm_num

/-- The flush configuration is the cast of its `ℚ` version. -/
theorem castParams_flushParams : castParams flushParamsQ = flushParams := by
  simp only [castParams, flushParamsQ, flushParams]
  norm_num

/-! ## Energies of the concrete frames -/

/-- `maxAbs` of the all-zero two-sample frame. -/
theorem maxAbs_zeroList : maxAbs [(0 : ℝ), 0] = 0 := by
  unfold maxAbs
  simp

/-- `maxAbs` of the constant-1/2 two-sample frame. -/
theorem maxAbs_halfList : maxAbs [(1 : ℝ) / 2, 1 / 2] = 1 / 2 := by
  unfold maxAbs
  simp only [List.foldr_cons, List.foldr_nil]
  rw [abs_of_nonneg (by norm_num : (0 : ℝ) ≤ 1 / 2),
    max_eq_left (by norm_num : (0 : ℝ) ≤ 1 / 2), max_self]

/-- The energy of an all-zero frame is 0. -/
theorem calculate_energy_zeroChunk : calculate_energy zeroChunk = 0 := by
  have hms : meanSquare (normalizeChunk (toFloatSamples zeroChunk)) = 0 := by
    unfold zeroChunk toFloatSamples normalizeChunk
    rw [maxAbs_zeroList, if_neg (by norm_num)]
    unfold meanSquare
    norm_num
  unfold calculate_energy
  rw [hms, Real.sqrt_zero]

/-- The energy of the constant-1/2 frame is 1/2. -/
theorem calculate_energy_halfChunk : calculate_energy halfChunk = 1 / 2 := by
  have hms : meanSquare (normalizeChunk (toFloatSamples halfChunk))
      = (1 / 2) ^ 2 := by
    unfold halfChunk toFloatSamples normalizeChunk
    rw [maxAbs_halfList, if_neg (by norm_num)]
    unfold meanSquare
    norm_num
  unfold calculate_energy
  rw [hms, Real.sqrt_sq (by norm_num : (0 : ℝ) ≤ 1 / 2)]

/-- The (frame, energy) pairs fed by `run_vad_chunks` on `scenarioChunks` are
the cast of `scenarioPairsQ`. -/
theorem scenario_pairs_eq :
    scenarioChunks.map (fun c => (toFloatSamples c, calculate_energy c))
      = scenarioPairsQ.map
          fun pr => (pr.1.map fun q : ℚ => (q : ℝ), ((pr.2 : ℝ))) := by
  have hz : (([0, 0] : List ℚ).map fun q : ℚ => (q : ℝ)) = [0, 0] := by norm_num
  have hh : (([1 / 2, 1 / 2] : List ℚ).map fun q : ℚ => (q : ℝ))
      = [1 / 2, 1 / 2] := by norm_num
  have hz2 : toFloatSamples zeroChunk = [0, 0] := rfl
  have hh2 : toFloatSamples halfChunk = [1 / 2, 1 / 2] := rfl
  simp [scenarioChunks, scenarioPairsQ, calculate_energy_zeroChunk,
    calculate_energy_halfChunk, hz, hh, hz2, hh2]

/-- Same as `scenario_pairs_eq` for the extended-tail input. -/
theorem scenario_pairs_long_eq :
    scenarioChunksLong.map (fun c => (toFloatSamples c, calculate_energy c))
      = scenarioPairsLongQ.map
          fun pr => (pr.1.map fun q : ℚ => (q : ℝ), ((pr.2 : ℝ))) := by
  have hz : (([0, 0] : List ℚ).map fun q : ℚ => (q : ℝ)) = [0, 0] := by norm_num
  have hh : (([1 / 2, 1 / 2] : List ℚ).map fun q : ℚ => (q : ℝ))
      = [1 / 2, 1 / 2] := by norm_num
  have hz2 : toFloatSamples zeroChunk = [0, 0] := rfl
  have hh2 : toFloatSamples halfChunk = [1 / 2, 1 / 2] := rfl
  simp [scenarioChunksLong, scenarioPairsLongQ, calculate_energy_zeroChunk,
    calculate_energy_halfChunk, hz, hh, hz2, hh2]

/-- Same as `scenario_pairs_eq` for the flushing input. -/
theorem flush_pairs_eq :
    flushChunks.map (fun c => (toFloatSamples c, calculate_energy c))
      = flushPairsQ.map
          fun pr => (pr.1.map fun q : ℚ => (q : ℝ), ((pr.2 : ℝ))) := by
  have hz : (([0, 0] : List ℚ).map fun q : ℚ => (q : ℝ)) = [0, 0] := by norm_num
  have hh : (([1 / 2, 1 / 2] : List ℚ).map fun q : ℚ => (q : ℝ))
      = [1 / 2, 1 / 2] := by norm_num
  have hz2 : toFloatSamples zeroChunk = [0, 0] := rfl
  have hh2 : toFloatSamples halfChunk = [1 / 2, 1 / 2] := rfl
  simp [flushChunks, flushPairsQ, calculate_energy_zeroChunk,
    calculate_energy_halfChunk, hz, hh, hz2, hh2]

/-! ## Evaluation of the scenario runs over `ℚ` -/

/-- Concrete evaluation of the §8 scenario over `ℚ`: no flush at all, the
machine ends in SPEECH holding all 17 appended frames. -/
theorem scenario_runQ_eval :
    (run_vad scenarioParamsQ scenarioPairsQ (initState ℚ)).2 = []
    ∧ (run_vad scenarioParamsQ scenarioPairsQ (initState ℚ)).1.current_state
        = VState.SPEECH
    ∧ (run_vad scenarioParamsQ scenarioPairsQ
        (initState ℚ)).1.speech_frames.length = 17 := by
  norm_num [run_vad, process_audio_frame, smoothed_update, initState,
    scenarioPairsQ, scenarioParamsQ, List.replicate]

/-- Concrete evaluation of the extended-tail scenario over `ℚ`: exactly one
flush, of all 37 appended frames (74 samples), ending in SILENCE. -/
theorem scenario_runQ_long_eval :
    ((run_vad scenarioParamsQ scenarioPairsLongQ (initState ℚ)).2.map
        fun o => (o.1.length, o.2)) = [(74, DispatchMode.sync)]
    ∧ (run_vad scenarioParamsQ scenarioPairsLongQ (initState ℚ)).1.current_state
        = VState.SILENCE := by
  norm_num [run_vad, process_audio_frame, smoothed_update, initState,
    scenarioPairsLongQ, scenarioParamsQ, List.replicate]

/-! ## Theorems: the §8 segmentation scenario (claim C6) -/

/-- Claim C6 counterexample: on 100 ms silence + 500 ms at energy 0.5 +
1200 ms silence, with threshold 0.02 and smoothing 0.9, the segmenter
flushes NO utterance (the claim says exactly one): the smoothed energy ends
the loud segment at ≈0.205 and decays by 0.9 per frame, staying above 0.02
for the whole 1200 ms tail, so no frame is ever classified silence. -/
theorem scenario_no_flush_counterexample :
    (run_vad_chunks scenarioParams scenarioChunks (initState ℝ)).2 = [] := by
  unfold run_vad_chunks
  rw [scenario_pairs_eq, ← castParams_scenarioParams, ← castState_initState,
    run_vad_cast]
  simp [scenario_runQ_eval.1]

/-- Claim C6 (amended): on the given input no utterance is flushed — the
smoothed energy stays above the 0.02 threshold throughout the 1200 ms tail,
the machine stays in SPEECH and retains all 17 appended frames.  With the
tail extended to 3200 ms, exactly one utterance is flushed (once 10
consecutive silence-classified frames accumulate, which first happens 3.2 s
into the tail) and it contains all 37 appended frames (3.7 s of audio, not
~500 ms), after which the machine is in SILENCE. -/
theorem scenario_run_amended :
    (run_vad_chunks scenarioParams scenarioChunks (initState ℝ)).2 = []
    ∧ (run_vad_chunks scenarioParams scenarioChunks
        (initState ℝ)).1.current_state = VState.SPEECH
    ∧ (run_vad_chunks scenarioParams scenarioChunks
        (initState ℝ)).1.speech_frames.length = 17
    ∧ ((run_vad_chunks scenarioParams scenarioChunksLong (initState ℝ)).2.map
        fun o => (o.1.length, o.2)) = [(74, DispatchMode.sync)]
    ∧ (run_vad_chunks scenarioParams scenarioChunksLong
        (initState ℝ)).1.current_state = VState.SILENCE := by
  have h1 : run_vad_chunks scenarioParams scenarioChunks (initState ℝ)
      = (castState (run_vad scenarioParamsQ scenarioPairsQ (initState ℚ)).1,
         (run_vad scenarioParamsQ scenarioPairsQ (initState ℚ)).2.map
           fun o => (o.1.map fun q : ℚ => (q : ℝ), o.2)) := by
    unfold run_vad_chunks
    rw [scenario_pairs_eq, ← castParams_scenarioParams, ← castState_initState,
      run_vad_cast]
  have h2 : run_vad_chunks scenarioParams scenarioChunksLong (initState ℝ)
      = (castState (run_vad scenarioParamsQ scenarioPairsLongQ (initState ℚ)).1,
         (run_vad scenarioParamsQ scenarioPairsLongQ (initState ℚ)).2.map
           fun o => (o.1.map fun q : ℚ => (q : ℝ), o.2)) := by
    unfold run_vad_chunks
    rw [scenario_pairs_long_eq, ← castParams_scenarioParams,
      ← castState_initState, run_vad_cast]
  rw [h1, h2]
  refine ⟨by simp [scenario_runQ_eval.1], ?_, ?_, ?_, ?_⟩
  · simp [castState, scenario_runQ_eval.2.1]
  · simp [castState, scenario_runQ_eval.2.2]
  · rw [List.map_map]
    have : ((fun o : List ℝ × DispatchMode => (o.1.length, o.2)) ∘
        fun o : List ℚ × DispatchMode =>
          (o.1.map fun q : ℚ => (q : ℝ), o.2))
        = fun o : List ℚ × DispatchMode => (o.1.length, o.2) := by
      funext o
      simp
    rw [this]
    exact scenario_runQ_long_eval.1
  · simp [castState, scenario_runQ_long_eval.2]

/-! ## Bounds on energy and smoothed energy -/

/-- Every element's absolute value is at most `maxAbs`. -/
theorem abs_le_maxAbs (xs : List ℝ) : ∀ x ∈ xs, |x| ≤ maxAbs xs := by
  induction xs with
  | nil => simp
  | cons a l ih =>
      intro x hx
      rcases List.mem_cons.mp hx with rfl | hx
      · exact le_max_left _ _
      · exact le_trans (ih x hx) (le_max_right _ _)

/-- `maxAbs` is non-negative. -/
theorem maxAbs_nonneg (xs : List ℝ) : 0 ≤ maxAbs xs := by
  induction xs with
  | nil => exact le_refl 0
  | cons a l ih => exact le_trans ih (le_max_right _ _)

/-- After peak normalization every sample is in [-1, 1]. -/
theorem abs_normalize_le_one (xs : List ℝ) :
    ∀ y ∈ normalizeChunk xs, |y| ≤ 1 := by
  intro y hy
  unfold normalizeChunk at hy
  split_ifs at hy with h
  · obtain ⟨x, hx, rfl⟩ := List.mem_map.mp hy
    have hM : 0 < maxAbs xs := lt_trans one_pos h
    rw [abs_div, abs_of_pos hM]
    exact div_le_one_of_le₀ (abs_le_maxAbs xs x hx) (le_of_lt hM)
  · exact le_trans (abs_le_maxAbs xs y hy) (le_of_not_lt h)

/-- The mean of squares is non-negative. -/
theorem meanSquare_nonneg (xs : List ℝ) : 0 ≤ meanSquare xs := by
  unfold meanSquare
  apply div_nonneg
  · apply List.sum_nonneg
    intro a ha
    obtain ⟨y, _, rfl⟩ := List.mem_map.mp ha
    positivity
  · positivity

/-- If every sample is in [-1, 1] the mean of squares is at most 1. -/
theorem meanSquare_le_one (xs : List ℝ) (h : ∀ y ∈ xs, |y| ≤ 1) :
    meanSquare xs ≤ 1 := by
  unfold meanSquare
  rcases eq_or_ne xs [] with rfl | hne
  · simp
  · have hlen : 0 < (xs.length : ℝ) := by
      exact_mod_cast List.length_pos.mpr hne
    rw [div_le_one hlen]
    have hb : ∀ a ∈ xs.map fun x => x ^ 2, a ≤ 1 := by
      intro a ha
      obtain ⟨y, hy, rfl⟩ := List.mem_map.mp ha
      calc y ^ 2 = |y| ^ 2 := (sq_abs y).symm
        _ ≤ 1 ^ 2 := pow_le_pow_left₀ (abs_nonneg y) (h y hy) 2
        _ = 1 := one_pow 2
    have hs := List.sum_le_card_nsmul (xs.map fun x => x ^ 2) 1 hb
    simpa [nsmul_eq_mul] using hs

/-- Frame energy is non-negative. -/
theorem calculate_energy_nonneg (c : AudioChunk) : 0 ≤ calculate_energy c :=
  Real.sqrt_nonneg _

/-- Frame energy is at most 1, for any samples of either dtype. -/
theorem calculate_energy_le_one (c : AudioChunk) : calculate_energy c ≤ 1 := by
  unfold calculate_energy
  exact Real.sqrt_le_one.mpr (meanSquare_le_one _ (abs_normalize_le_one _))

/-- Every branch of `_process_audio_frame` stores the updated smoothed
energy. -/
theorem process_audio_frame_smoothed {K : Type} [LinearOrderedField K]
    (p : VADParams K) (f : List K) (e : K) (st : RecState K) :
    (process_audio_frame p f e st).1.smoothed_energy
      = smoothed_update p e st.smoothed_energy := by
  cases hcs : st.current_state <;>
    simp only [process_audio_frame, hcs] <;> split_ifs <;> rfl

/-- The smoothing update maps [0,1] inputs to [0,1]. -/
theorem smoothed_update_unit (p : VADParams ℝ) (hα0 : 0 ≤ p.smoothing_factor)
    (hα1 : p.smoothing_factor ≤ 1) {e s : ℝ} (he0 : 0 ≤ e) (he1 : e ≤ 1)
    (hs0 : 0 ≤ s) (hs1 : s ≤ 1) :
    0 ≤ smoothed_update p e s ∧ smoothed_update p e s ≤ 1 := by
  unfold smoothed_update
  constructor
  · have h1 : 0 ≤ p.smoothing_factor * s := mul_nonneg hα0 hs0
    have h2 : 0 ≤ (1 - p.smoothing_factor) * e :=
      mul_nonneg (by linarith) he0
    linarith
  · have h1 : p.smoothing_factor * s ≤ p.smoothing_factor * 1 :=
      mul_le_mul_of_nonneg_left hs1 hα0
    have h2 : (1 - p.smoothing_factor) * e ≤ (1 - p.smoothing_factor) * 1 :=
      mul_le_mul_of_nonneg_left he1 (by linarith)
    linarith

/-- Along any run the smoothed energy stays in [0,1]. -/
theorem run_vad_chunks_smoothed_unit (p : VADParams ℝ)
    (hα0 : 0 ≤ p.smoothing_factor) (hα1 : p.smoothing_factor ≤ 1) :
    ∀ (cs : List AudioChunk) (st : RecState ℝ),
      0 ≤ st.smoothed_energy → st.smoothed_energy ≤ 1 →
      0 ≤ (run_vad_chunks p cs st).1.smoothed_energy
      ∧ (run_vad_chunks p cs st).1.smoothed_energy ≤ 1 := by
  intro cs
  induction cs with
  | nil =>
      intro st h0 h1
      unfold run_vad_chunks
      simp only [List.map_nil, run_vad]
      exact ⟨h0, h1⟩
  | cons c rest ih =>
      intro st h0 h1
      have hstep := smoothed_update_unit p hα0 hα1
        (calculate_energy_nonneg c) (calculate_energy_le_one c) h0 h1
      have hsm := process_audio_frame_smoothed p (toFloatSamples c)
        (calculate_energy c) st
      have hrest := ih (process_audio_frame p (toFloatSamples c)
          (calculate_energy c) st).1
        (by rw [hsm]; exact hstep.1) (by rw [hsm]; exact hstep.2)
      unfold run_vad_chunks at hrest ⊢
      simpa only [List.map_cons, run_vad] using hrest

/-! ## Theorems: energy in the unit interval (claim C10) -/

/-- Claim C10: for every captured frame (either dtype, any amplitude range)
the computed energy lies in [0, 1], and starting from the initial smoothed
energy 0, the smoothed estimate stays in [0, 1] after processing every
frame, for any smoothing factor in [0, 1]. -/
theorem energy_smoothed_unit_interval (p : VADParams ℝ)
    (hα0 : 0 ≤ p.smoothing_factor) (hα1 : p.smoothing_factor ≤ 1)
    (cs : List AudioChunk) (_hne : ∀ c ∈ cs, toFloatSamples c ≠ []) :
    (∀ c ∈ cs, 0 ≤ calculate_energy c ∧ calculate_energy c ≤ 1)
    ∧ 0 ≤ (run_vad_chunks p cs (initState ℝ)).1.smoothed_energy
    ∧ (run_vad_chunks p cs (initState ℝ)).1.smoothed_energy ≤ 1 := by
  refine ⟨fun c _ => ⟨calculate_energy_nonneg c, calculate_energy_le_one c⟩, ?_⟩
  exact run_vad_chunks_smoothed_unit p hα0 hα1 cs (initState ℝ) le_rfl zero_le_one

/-- Witness for `energy_smoothed_unit_interval` on a float frame that needs
peak normalization and an int16 frame. -/
theorem energy_smoothed_unit_interval_witness :
    0 ≤ (run_vad_chunks flushParams
        [AudioChunk.float32 [2, 0], AudioChunk.int16 [1]]
        (initState ℝ)).1.smoothed_energy
    ∧ (run_vad_chunks flushParams
        [AudioChunk.float32 [2, 0], AudioChunk.int16 [1]]
        (initState ℝ)).1.smoothed_energy ≤ 1 :=
  (energy_smoothed_unit_interval flushParams (by norm_num [flushParams])
    (by norm_num [flushParams]) _
    (by
      intro c hc
      rcases List.mem_cons.mp hc with rfl | hc
      · simp [toFloatSamples]
      · rcases List.mem_cons.mp hc with rfl | hc
        · simp [toFloatSamples]
        · simp at hc)).2

/-! ## Theorems: no all-zero utterance reaches recognition (claim C9) -/

/-- A frame with positive energy contains a non-zero sample. -/
theorem exists_nonzero_of_energy_pos (c : AudioChunk)
    (h : 0 < calculate_energy c) : ∃ x ∈ toFloatSamples c, x ≠ 0 := by
  have hms : 0 < meanSquare (normalizeChunk (toFloatSamples c)) :=
    Real.sqrt_pos.mp h
  set ys := normalizeChunk (toFloatSamples c) with hys
  have hsum : 0 < (ys.map fun x => x ^ 2).sum := by
    by_contra hle
    push_neg at hle
    unfold meanSquare at hms
    have hnn : (0 : ℝ) ≤ (ys.length : ℝ) := by positivity
    have hdiv : (ys.map fun x => x ^ 2).sum / (ys.length : ℝ) ≤ 0 :=
      div_nonpos_of_nonpos_of_nonneg hle hnn
    linarith
  have hex : ∃ z ∈ ys, z ≠ 0 := by
    by_contra hall
    push_neg at hall
    have hzero : (ys.map fun x => x ^ 2).sum = 0 := by
      apply List.sum_eq_zero
      intro a ha
      obtain ⟨z, hz, rfl⟩ := List.mem_map.mp ha
      rw [hall z hz]
      ring
    linarith
  obtain ⟨z, hz, hzne⟩ := hex
  rw [hys] at hz
  unfold normalizeChunk at hz
  split_ifs at hz with hM
  · obtain ⟨x, hx, rfl⟩ := List.mem_map.mp hz
    refine ⟨x, hx, fun h0 => hzne ?_⟩
    rw [h0, zero_div]
  · exact ⟨z, hz, hzne⟩

/-- The invariant holds in the `__init__` state. -/
theorem vadInv_initState (p : VADParams ℝ) (hθ : 0 ≤ p.speech_threshold) :
    VadInv p (initState ℝ) :=
  ⟨le_rfl, fun _ => hθ, fun h => VState.noConfusion h⟩

/-- One `_process_audio_frame` step preserves the invariant, and any segment
it flushes contains a non-zero sample. -/
theorem process_chunk_inv (p : VADParams ℝ) (hα0 : 0 ≤ p.smoothing_factor)
    (hα1 : p.smoothing_factor ≤ 1) (c : AudioChunk) (st : RecState ℝ)
    (hinv : VadInv p st) :
    VadInv p (process_audio_frame p (toFloatSamples c)
        (calculate_energy c) st).1
    ∧ ∀ o ∈ (process_audio_frame p (toFloatSamples c)
        (calculate_energy c) st).2.toList, ∃ x ∈ o.1, x ≠ 0 := by
  obtain ⟨hs0, hsil, hspe⟩ := hinv
  have he0 : 0 ≤ calculate_energy c := calculate_energy_nonneg c
  have hupd0 : 0 ≤ smoothed_update p (calculate_energy c)
      st.smoothed_energy := by
    unfold smoothed_update
    have h1 : 0 ≤ p.smoothing_factor * st.smoothed_energy :=
      mul_nonneg hα0 hs0
    have h2 : 0 ≤ (1 - p.smoothing_factor) * calculate_energy c :=
      mul_nonneg (by linarith) he0
    linarith
  cases hcs : st.current_state
  case SILENCE =>
    simp only [process_audio_frame, hcs]
    rcases lt_or_le p.speech_threshold
        (smoothed_update p (calculate_energy c) st.smoothed_energy) with h | h
    · rw [if_pos h]
      have hepos : 0 < calculate_energy c := by
        rcases lt_or_eq_of_le he0 with hp | heq
        · exact hp
        · exfalso
          have hle : smoothed_update p (calculate_energy c)
              st.smoothed_energy ≤ p.speech_threshold := by
            unfold smoothed_update
            rw [← heq, mul_zero, add_zero]
            calc p.smoothing_factor * st.smoothed_energy
                ≤ 1 * st.smoothed_energy :=
                  mul_le_mul_of_nonneg_right hα1 hs0
              _ = st.smoothed_energy := one_mul _
              _ ≤ p.speech_threshold := hsil hcs
          exact absurd h (not_lt.mpr hle)
      obtain ⟨x, hx, hxne⟩ := exists_nonzero_of_energy_pos c hepos
      refine ⟨⟨hupd0, fun hss => VState.noConfusion hss,
        fun _ => ⟨toFloatSamples c,
          List.mem_append_right _ (List.mem_singleton_self _),
          x, hx, hxne⟩⟩, ?_⟩
      intro o ho
      simp at ho
    · rw [if_neg (not_lt.mpr h)]
      refine ⟨⟨hupd0, fun _ => h, fun hss => VState.noConfusion hss⟩, ?_⟩
      intro o ho
      simp at ho
  case SPEECH =>
    simp only [process_audio_frame, hcs]
    obtain ⟨g, hg, x, hx, hxne⟩ := hspe hcs
    rcases lt_or_le p.speech_threshold
        (smoothed_update p (calculate_energy c) st.smoothed_energy) with h | h
    · rw [if_pos h]
      refine ⟨⟨hupd0, fun hss => VState.noConfusion hss,
        fun _ => ⟨g, List.mem_append_left _ hg, x, hx, hxne⟩⟩, ?_⟩
      intro o ho
      simp at ho
    · rw [if_neg (not_lt.mpr h)]
      by_cases hcnt : p.silence_frames_needed ≤ st.silent_frames_count + 1
      · rw [if_pos hcnt]
        refine ⟨⟨hupd0, fun _ => h, fun hss => VState.noConfusion hss⟩, ?_⟩
        intro o ho
        simp only [Option.toList_some, List.mem_singleton] at ho
        subst ho
        exact ⟨x, List.mem_flatten.mpr ⟨g, List.mem_append_left _ hg, hx⟩, hxne⟩
      · rw [if_neg hcnt]
        refine ⟨⟨hupd0, fun hss => VState.noConfusion hss,
          fun _ => ⟨g, List.mem_append_left _ hg, x, hx, hxne⟩⟩, ?_⟩
        intro o ho
        simp at ho

/-- A whole run preserves the invariant; every flushed segment has a
non-zero sample. -/
theorem run_chunks_inv (p : VADParams ℝ) (hα0 : 0 ≤ p.smoothing_factor)
    (hα1 : p.smoothing_factor ≤ 1) :
    ∀ (cs : List AudioChunk) (st : RecState ℝ), VadInv p st →
      VadInv p (run_vad_chunks p cs st).1
      ∧ ∀ o ∈ (run_vad_chunks p cs st).2, ∃ x ∈ o.1, x ≠ 0 := by
  intro cs
  induction cs with
  | nil =>
      intro st h
      unfold run_vad_chunks
      simp only [List.map_nil, run_vad]
      exact ⟨h, by simp⟩
  | cons c rest ih =>
      intro st h
      have hstep := process_chunk_inv p hα0 hα1 c st h
      have hrest := ih (process_audio_frame p (toFloatSamples c)
          (calculate_energy c) st).1 hstep.1
      unfold run_vad_chunks at hrest ⊢
      simp only [List.map_cons, run_vad]
      refine ⟨hrest.1, ?_⟩
      intro o ho
      rcases List.mem_append.mp ho with ho | ho
      · exact hstep.2 o ho
      · exact hrest.2 o ho

/-- Claim C9: starting from the initial state, with smoothing factor in
[0, 1] and a non-negative threshold, every flushed utterance contains a
non-zero sample — so an all-zero buffer never reaches recognition via a
flush; independently, the `audio_chunk.any()` guard makes
`recognize_audio_chunk` return before recognition on any all-zero buffer. -/
theorem no_allzero_flush (p : VADParams ℝ) (hα0 : 0 ≤ p.smoothing_factor)
    (hα1 : p.smoothing_factor ≤ 1) (hθ : 0 ≤ p.speech_threshold)
    (cs : List AudioChunk) :
    (∀ o ∈ (run_vad_chunks p cs (initState ℝ)).2, ∃ x ∈ o.1, x ≠ 0)
    ∧ ∀ xs : List ℝ, (∀ x ∈ xs, x = 0) →
        recognize_audio_chunk_proceeds xs = false := by
  constructor
  · exact (run_chunks_inv p hα0 hα1 cs (initState ℝ)
      (vadInv_initState p hθ)).2
  · intro xs hall
    unfold recognize_audio_chunk_proceeds
    rw [List.any_eq_false]
    intro x hx
    simp [hall x hx]

/-- Concrete evaluation of the flushing run over `ℚ`. -/
theorem flush_runQ_eval :
    (run_vad flushParamsQ flushPairsQ (initState ℚ)).2
      = [([1 / 2, 1 / 2, 0, 0, 0, 0, 0, 0, 0, 0], DispatchMode.sync)] := by
  norm_num [run_vad, process_audio_frame, smoothed_update, initState,
    flushPairsQ, flushParamsQ]

/-- The flushing run over `ℝ`: one flush of `[1/2, 1/2, 0, …, 0]`. -/
theorem flush_run_eval :
    (run_vad_chunks flushParams flushChunks (initState ℝ)).2
      = [([1 / 2, 1 / 2, 0, 0, 0, 0, 0, 0, 0, 0], DispatchMode.sync)] := by
  unfold run_vad_chunks
  rw [flush_pairs_eq, ← castParams_flushParams, ← castState_initState,
    run_vad_cast, flush_runQ_eval]
  norm_num

/-- Witness for `no_allzero_flush`: the segment flushed by the concrete run
has a non-zero sample, so the recognition guard lets it through. -/
theorem no_allzero_flush_witness :
    recognize_audio_chunk_proceeds
      ([1 / 2, 1 / 2, 0, 0, 0, 0, 0, 0, 0, 0] : List ℝ) = true := by
  have h := (no_allzero_flush flushParams (by norm_num [flushParams])
    (by norm_num [flushParams]) (by norm_num [flushParams]) flushChunks).1
  have hmem : (([1 / 2, 1 / 2, 0, 0, 0, 0, 0, 0, 0, 0] : List ℝ),
      DispatchMode.sync)
      ∈ (run_vad_chunks flushParams flushChunks (initState ℝ)).2 := by
    rw [flush_run_eval]
    exact List.mem_singleton_self _
  obtain ⟨x, hx, hxne⟩ := h _ hmem
  unfold recognize_audio_chunk_proceeds
  rw [List.any_eq_true]
  exact ⟨x, hx, decide_eq_true hxne⟩

/-! ## Theorems: the per-frame energy/classification formula (claim C7) -/

/-- Claim C7: `_is_speech` computes the frame energy as the spec's RMS of the
sample amplitudes (normalizing into [-1,1] first when the peak exceeds 1),
updates the smoothed estimate by `α·smoothed + (1-α)·energy`, and classifies
the frame as speech iff the updated estimate strictly exceeds the
threshold. -/
theorem is_speech_matches_spec (p : VADParams ℝ) (xs : List ℝ) (s : ℝ) :
    is_speech p (AudioChunk.float32 xs) s
      = spec_classify p.smoothing_factor p.speech_threshold s
          (spec_energy xs) := by
  have he : calculate_energy (AudioChunk.float32 xs) = spec_energy xs := by
    simp only [calculate_energy, spec_energy, spec_rms, meanSquare,
      normalizeChunk, toFloatSamples]
    split_ifs with h <;> rfl
  unfold is_speech spec_classify smoothed_update
  rw [he]

end StudyAid
